import Mathlib

/-!
Verification of `snps.py` (nanopore-methylation repository).

The Python module defines a `SNP` entity (constructed from VCF fields),
a mutation-type classifier `detect_type`, a read-association method
`detect_mapped_reads`, a selection utility `find_most_reads_snp`, and a
VCF loader `load_VCF`.  Below is a shallow embedding: each Python
function becomes a Lean function; the loader's file handle is replaced
by the list of lines of the file, and its exception flow by `Except`.
-/

namespace Snps

/-- Python's substring operator `needle in haystack` on strings:
true iff `needle` occurs contiguously inside `haystack` (the empty
string is a substring of everything). -/
def pyIn (needle haystack : String) : Bool :=
  (List.range (haystack.data.length + 1)).any fun i =>
    List.isPrefixOf needle.data (haystack.data.drop i)

/-- Python's `s.startswith(pre)`. -/
def pyStartswith (s pre : String) : Bool :=
  List.isPrefixOf pre.data s.data

/-- Python's `s.strip()`: remove leading and trailing whitespace. -/
def pyStrip (s : String) : String :=
  ⟨((s.data.dropWhile Char.isWhitespace).reverse.dropWhile Char.isWhitespace).reverse⟩

/-- Split a character list at every occurrence of `sep` (Python's
`str.split(sep)` for a one-character separator: adjacent separators
give empty parts, and the result always has one more part than there
are separators). -/
def splitOnChar (sep : Char) : List Char → List (List Char)
  | [] => [[]]
  | c :: rest =>
    if c = sep then [] :: splitOnChar sep rest
    else
      match splitOnChar sep rest with
      | [] => [[c]]
      | part :: parts => (c :: part) :: parts

/-- Python's `s.split(sep)` for a one-character separator. -/
def pySplit (s : String) (sep : Char) : List String :=
  (splitOnChar sep s.data).map fun cs => ⟨cs⟩

/-- Interpret a list of characters as a decimal numeral: `none` when
empty or containing a non-digit. -/
def digitsToNat : List Char → Option Nat
  | [] => none
  | cs =>
    if cs.all Char.isDigit then
      some (cs.foldl (fun n c => 10 * n + (c.toNat - 48)) 0)
    else none

/-- Python's `int(s)` on a string, restricted to the plain decimal
forms that matter here: optional surrounding whitespace, an optional
sign, then one or more digits.  `none` models the `ValueError` that
`int` raises otherwise. -/
def pyInt (s : String) : Option Int :=
  match (pyStrip s).data with
  | '-' :: rest => (digitsToNat rest).map fun n => -(n : Int)
  | '+' :: rest => (digitsToNat rest).map fun n => (n : Int)
  | cs => (digitsToNat cs).map fun n => (n : Int)

/-- The `TRANSVERSIONS` pair-string table of `SNP.detect_type`. -/
def TRANSVERSIONS : List String := ["AC", "AT", "CG", "GT"]

/-- `SNP.detect_type` from `snps.py`, as a function from the `ref` and
`alt` alleles to the `type` string it leaves on the entity (the field
starts out as `""` and the transversion loop is an exists-style scan
that only ever writes `"transversion"`). -/
def detect_type (ref alt : String) : String :=
  if 1 < ref.length || 1 < alt.length then "indel"
  else if (pyIn ref "AG" && pyIn alt "AG") || (pyIn ref "CT" && pyIn alt "CT") then
    "transition"
  else if TRANSVERSIONS.any (fun conbo => ref != alt && pyIn ref conbo && pyIn alt conbo) then
    "transversion"
  else ""

/-- Modelled from the spec: the interface of the externally supplied
read records consumed by `SNP.detect_mapped_reads` — a chromosome, an
inclusive start and end coordinate, and a base lookup by position.
The read class itself is not part of `src/`. -/
structure NanoporeRead where
  chr : String
  start : Int
  stop : Int
  get_base : Int → String

/-- The `SNP` entity of `snps.py`, after `__init__` has run: `pos` is
already the parsed integer, `mut = ref ++ alt`, and `type` holds the
result of `detect_type`. -/
structure SNP where
  chrom : String
  id : String
  pos : Int
  ref : String
  alt : String
  «mut» : String
  gt : String
  type : String
  reads : List NanoporeRead
  bases : List String
  model_llkh : List Int
  model : Option Int

/-- `SNP.__init__`: parse `pos` with `int` (a failure there is a
`ValueError`, modelled as `none`), set `mut = ref + alt`, run
`detect_type`, and start with empty read/base lists, likelihoods
`[0, 0]` and no model. -/
def SNP.make (chr id pos ref alt gt : String) : Option SNP :=
  (pyInt pos).map fun p =>
    { chrom := chr, id := id, pos := p, ref := ref, alt := alt,
      «mut» := ref ++ alt, gt := gt, type := detect_type ref alt,
      reads := [], bases := [], model_llkh := [0, 0], model := none }

/-- `SNP.detect_mapped_reads`: for each read in iteration order, if the
chromosome matches and `start ≤ pos ≤ end`, append the read to `reads`
and `read.get_base(pos)` to `bases`.  The mutation of `self` is
modelled by returning the updated entity. -/
def SNP.detect_mapped_reads (s : SNP) : List NanoporeRead → SNP
  | [] => s
  | read :: rest =>
    if s.chrom = read.chr ∧ read.start ≤ s.pos ∧ s.pos ≤ read.stop then
      SNP.detect_mapped_reads
        { s with reads := s.reads ++ [read],
                 bases := s.bases ++ [read.get_base s.pos] } rest
    else SNP.detect_mapped_reads s rest

/-- `SNP.set_model`. -/
def SNP.set_model (s : SNP) (model : Int) : SNP :=
  { s with model := some model }

/-- `SNP.__eq__`: equality of chromosome, position and `mut`. -/
def SNP.eq (s other : SNP) : Bool :=
  s.chrom == other.chrom && s.pos == other.pos && s.«mut» == other.«mut»

/-- `SNP.__ne__`: written in the source independently of `__eq__`. -/
def SNP.ne (s other : SNP) : Bool :=
  s.chrom != other.chrom || s.pos != other.pos || s.«mut» != other.«mut»

/-- `SNP.__hash__` hashes the pair `(chrom, pos)`; since Python's
`hash` is a deterministic function of that tuple, the hash key is
modelled as the tuple itself. -/
def SNP.hashKey (s : SNP) : String × Int :=
  (s.chrom, s.pos)

/-- The running-maximum scan of `find_most_reads_snp`. -/
def find_aux : List SNP → Nat → Option SNP → Option SNP
  | [], _, best_snp => best_snp
  | snp :: rest, max_reads_num, best_snp =>
    if max_reads_num < snp.reads.length then
      find_aux rest snp.reads.length (some snp)
    else
      find_aux rest max_reads_num best_snp

/-- `find_most_reads_snp` from `snps.py`: start from `max_reads_num = 0`
and `best_snp = None`, update both whenever a strictly larger read
count appears. -/
def find_most_reads_snp (snp_list : List SNP) : Option SNP :=
  find_aux snp_list 0 none

/-- The largest read count in a list of SNPs (0 when empty). -/
def maxReads (l : List SNP) : Nat :=
  l.foldr (fun s m => max s.reads.length m) 0

/-- Python tuple unpacking `a, b, ... = l` into exactly ten names:
`none` models the `ValueError` raised for any other length. -/
def unpack10 (l : List String) :
    Option (String × String × String × String × String ×
            String × String × String × String × String) :=
  match l with
  | [a, b, c, d, e, f, g, h, i, j] => some (a, b, c, d, e, f, g, h, i, j)
  | _ => none

/-- Python tuple unpacking `a, b = l` into exactly two names. -/
def unpack2 (l : List String) : Option (String × String) :=
  match l with
  | [a, b] => some (a, b)
  | _ => none

/-- The failures of `load_VCF`: every `ValueError` raised inside the
`try` block (tuple unpacking of a data line, genotype splitting, or
`int(pos)` inside `SNP.__init__`) is re-raised as the single
`RuntimeError("Not the right values to unpack.")`; an unreadable file
is re-raised as `IOError`. -/
inductive VCFError where
  | unpacking
  | unavailable
deriving DecidableEq

/-- The per-line loop of `load_VCF` over the lines of the file. -/
def loadVCFAux : List String → Except VCFError (List SNP)
  | [] => .ok []
  | line :: rest =>
    if pyStartswith line "chr" then
      match unpack10 (pySplit (pyStrip line) '\t') with
      | none => .error .unpacking
      | some (chrom, pos, id, ref, alt, _qual, _fltr, _info, _fmt, gt) =>
        match unpack2 (pySplit gt '|') with
        | none => .error .unpacking
        | some (a, b) =>
          if a ≠ b then
            match SNP.make chrom id pos ref alt gt with
            | none => .error .unpacking
            | some snp =>
              if snp.type = "indel" then loadVCFAux rest
              else (loadVCFAux rest).map fun r => snp :: r
          else loadVCFAux rest
    else loadVCFAux rest

/-- `load_VCF` from `snps.py`, with the opened file replaced by its
list of lines (the `IOError` path is the file-system side, out of the
embedding's reach; every data-line failure surfaces as
`VCFError.unpacking`). -/
def load_VCF (lines : List String) : Except VCFError (List SNP) :=
  loadVCFAux lines

/-- What `load_VCF` keeps of a single line when no error fires: the
constructed SNP for a `chr`-prefixed, well-formed, heterozygous,
non-indel line, and nothing otherwise. -/
def retained (line : String) : Option SNP :=
  if pyStartswith line "chr" then
    match unpack10 (pySplit (pyStrip line) '\t') with
    | none => none
    | some (chrom, pos, id, ref, alt, _qual, _fltr, _info, _fmt, gt) =>
      match unpack2 (pySplit gt '|') with
      | none => none
      | some (a, b) =>
        if a ≠ b then
          match SNP.make chrom id pos ref alt gt with
          | none => none
          | some snp => if snp.type = "indel" then none else some snp
        else none
  else none

/-- A line on which `load_VCF`'s loop cannot raise: either it does not
start with `"chr"`, or it splits into exactly ten fields whose genotype
splits into exactly two alleles, and whenever the alleles differ the
position is integer-coercible. -/
def lineWF (line : String) : Bool :=
  if pyStartswith line "chr" then
    match unpack10 (pySplit (pyStrip line) '\t') with
    | none => false
    | some (chrom, pos, id, ref, alt, _qual, _fltr, _info, _fmt, gt) =>
      match unpack2 (pySplit gt '|') with
      | none => false
      | some (a, b) =>
        if a ≠ b then (SNP.make chrom id pos ref alt gt).isSome
        else true
  else true

/-- `map_reads` from `snps.py`: run `detect_mapped_reads` on every SNP
against the whole read collection. -/
def map_reads (snps : List SNP) (reads : List NanoporeRead) : List SNP :=
  snps.map fun snp => snp.detect_mapped_reads reads

/-! ### Helper lemmas -/

/-- A one-character string is a Python-substring of `"AG"` exactly for
the characters `A` and `G`. -/
theorem pyIn_single_AG (c : Char) : pyIn ⟨[c]⟩ "AG" = (c == 'A' || c == 'G') := by
  have h : ("AG" : String).data = ['A', 'G'] := rfl
  have hr : List.range 3 = [0, 1, 2] := rfl
  simp [pyIn, h, hr, List.isPrefixOf]

/-- A one-character string is a Python-substring of `"CT"` exactly for
the characters `C` and `T`. -/
theorem pyIn_single_CT (c : Char) : pyIn ⟨[c]⟩ "CT" = (c == 'C' || c == 'T') := by
  have h : ("CT" : String).data = ['C', 'T'] := rfl
  have hr : List.range 3 = [0, 1, 2] := rfl
  simp [pyIn, h, hr, List.isPrefixOf]

/-! ### Claims -/

/-- C1: for single-character alleles over `{A,C,G,T}` with `ref ≠ alt`,
`detect_type` yields exactly one of `"transition"`/`"transversion"`,
with `"transition"` precisely on the unordered pairs `{A,G}` and
`{C,T}`; and whenever `ref` or `alt` is longer than one character the
result is `"indel"` regardless of content. -/
theorem C1_detect_type_classification :
    (∀ ref alt : String, 1 < ref.length ∨ 1 < alt.length →
      detect_type ref alt = "indel") ∧
    (∀ ref alt : String, ref ∈ (["A", "C", "G", "T"] : List String) →
      alt ∈ (["A", "C", "G", "T"] : List String) → ref ≠ alt →
      (detect_type ref alt = "transition" ∨ detect_type ref alt = "transversion") ∧
      ¬(detect_type ref alt = "transition" ∧ detect_type ref alt = "transversion") ∧
      (detect_type ref alt = "transition" ↔
        (ref = "A" ∧ alt = "G") ∨ (ref = "G" ∧ alt = "A") ∨
        (ref = "C" ∧ alt = "T") ∨ (ref = "T" ∧ alt = "C"))) := by
  constructor
  · intro ref alt h
    have hb : (1 < ref.length || 1 < alt.length) = true := by
      rcases h with h | h <;> simp [h]
    simp [detect_type, hb]
  · intro ref alt hr ha hne
    fin_cases hr <;> fin_cases ha <;> revert hne <;> decide

/-- Witness for C1 at concrete inputs. -/
theorem C1_detect_type_classification_witness :
    detect_type "AT" "G" = "indel" ∧ detect_type "A" "G" = "transition" ∧
    detect_type "A" "C" = "transversion" := by
  refine ⟨C1_detect_type_classification.1 "AT" "G" (by decide), ?_, ?_⟩
  · exact (C1_detect_type_classification.2 "A" "G" (by decide) (by decide)
      (by decide)).2.2.mpr (Or.inl ⟨rfl, rfl⟩)
  · have h := C1_detect_type_classification.2 "A" "C" (by decide) (by decide) (by decide)
    rcases h.1 with ht | htv
    · exact absurd (h.2.2.mp ht) (by decide)
    · exact htv

/-- C6 counterexample: a SNP built with `ref = alt = "A"` is classified
`"transition"`, not the empty string, because the transition branch
tests substring membership without requiring `ref ≠ alt`. -/
theorem C6_counterexample :
    (SNP.make "chr19" "." "294525" "A" "A" "1|0").map SNP.type = some "transition" ∧
    (SNP.make "chr19" "." "294525" "A" "A" "1|0").map SNP.type ≠ some "" := by
  decide

/-- C6 (amended): for a single-character `ref = alt`, classification
yields `"transition"` when the character is one of `A`, `C`, `G`, `T`
(both substring tests of a transition pair-string succeed and the
branch does not require `ref ≠ alt`), and the empty string otherwise. -/
theorem C6_detect_type_equal_alleles (r : String) (h1 : r.length = 1) :
    (r ∈ (["A", "C", "G", "T"] : List String) → detect_type r r = "transition") ∧
    (r ∉ (["A", "C", "G", "T"] : List String) → detect_type r r = "") := by
  constructor
  · intro hr
    fin_cases hr <;> decide
  · intro hn
    obtain ⟨c, hc⟩ : ∃ c, r = ⟨[c]⟩ := by
      rcases r with ⟨data⟩
      rcases data with _ | ⟨c, _ | ⟨d, rest⟩⟩
      · exact absurd h1 (by decide)
      · exact ⟨c, rfl⟩
      · exact absurd h1 (by simp [String.length])
    subst hc
    have hA : c ≠ 'A' := fun h => hn (by subst h; decide)
    have hC : c ≠ 'C' := fun h => hn (by subst h; decide)
    have hG : c ≠ 'G' := fun h => hn (by subst h; decide)
    have hT : c ≠ 'T' := fun h => hn (by subst h; decide)
    simp [detect_type, pyIn_single_AG, pyIn_single_CT, hA, hC, hG, hT]

/-- Witness for the amended C6 at concrete inputs. -/
theorem C6_detect_type_equal_alleles_witness :
    detect_type "A" "A" = "transition" ∧ detect_type "N" "N" = "" :=
  ⟨(C6_detect_type_equal_alleles "A" (by decide)).1 (by decide),
   (C6_detect_type_equal_alleles "N" (by decide)).2 (by decide)⟩

/-- C3: `detect_mapped_reads` appends exactly the reads whose
chromosome matches the SNP's and whose inclusive `[start, stop]`
interval contains `pos`, in the input's iteration order, and appends
for each such read its `get_base` lookup at `pos` at the matching index
of `bases`; if `reads` and `bases` were index-aligned before the call
they stay so. -/
theorem C3_detect_mapped_reads_spec (s : SNP) (rd : List NanoporeRead) :
    (s.detect_mapped_reads rd).reads = s.reads ++ rd.filter
      (fun read => decide (s.chrom = read.chr ∧ read.start ≤ s.pos ∧ s.pos ≤ read.stop)) ∧
    (s.detect_mapped_reads rd).bases = s.bases ++ (rd.filter
      (fun read => decide (s.chrom = read.chr ∧ read.start ≤ s.pos ∧ s.pos ≤ read.stop))).map
      (fun read => read.get_base s.pos) ∧
    (s.reads.length = s.bases.length →
      (s.detect_mapped_reads rd).reads.length = (s.detect_mapped_reads rd).bases.length) := by
  have key : ∀ (rd : List NanoporeRead) (s : SNP),
      (s.detect_mapped_reads rd).reads = s.reads ++ rd.filter
        (fun read => decide (s.chrom = read.chr ∧ read.start ≤ s.pos ∧ s.pos ≤ read.stop)) ∧
      (s.detect_mapped_reads rd).bases = s.bases ++ (rd.filter
        (fun read => decide (s.chrom = read.chr ∧ read.start ≤ s.pos ∧ s.pos ≤ read.stop))).map
        (fun read => read.get_base s.pos) := by
    intro rd
    induction rd with
    | nil => intro s; simp [SNP.detect_mapped_reads]
    | cons read rest ih =>
      intro s
      by_cases h : s.chrom = read.chr ∧ read.start ≤ s.pos ∧ s.pos ≤ read.stop
      · have hrec := ih { s with reads := s.reads ++ [read],
                                 bases := s.bases ++ [read.get_base s.pos] }
        simp only [SNP.detect_mapped_reads, if_pos h] at *
        simp_all [List.filter_cons, h]
      · have hrec := ih s
        simp only [SNP.detect_mapped_reads, if_neg h] at *
        simp_all [List.filter_cons, h]
  refine ⟨(key rd s).1, (key rd s).2, fun h => ?_⟩
  rw [(key rd s).1, (key rd s).2]
  simp [h]

/-- Witness for C3 at a concrete SNP and read list: the matching read
is kept with its base, the read on another chromosome and the read not
covering `pos` are not. -/
theorem C3_detect_mapped_reads_spec_witness :
    (SNP.detect_mapped_reads
        { chrom := "chr1", id := ".", pos := 150, ref := "A", alt := "G",
          «mut» := "AG", gt := "1|0", type := "transition", reads := [],
          bases := [], model_llkh := [0, 0], model := none }
        [{ chr := "chr1", start := 100, stop := 200, get_base := fun _ => "A" },
         { chr := "chr2", start := 100, stop := 200, get_base := fun _ => "C" },
         { chr := "chr1", start := 200, stop := 300, get_base := fun _ => "G" }]).reads.length = 1 ∧
    (SNP.detect_mapped_reads
        { chrom := "chr1", id := ".", pos := 150, ref := "A", alt := "G",
          «mut» := "AG", gt := "1|0", type := "transition", reads := [],
          bases := [], model_llkh := [0, 0], model := none }
        [{ chr := "chr1", start := 100, stop := 200, get_base := fun _ => "A" },
         { chr := "chr2", start := 100, stop := 200, get_base := fun _ => "C" },
         { chr := "chr1", start := 200, stop := 300, get_base := fun _ => "G" }]).bases = ["A"] ∧
    (SNP.detect_mapped_reads
        { chrom := "chr1", id := ".", pos := 150, ref := "A", alt := "G",
          «mut» := "AG", gt := "1|0", type := "transition", reads := [],
          bases := [], model_llkh := [0, 0], model := none }
        [{ chr := "chr1", start := 100, stop := 200, get_base := fun _ => "A" },
         { chr := "chr2", start := 100, stop := 200, get_base := fun _ => "C" },
         { chr := "chr1", start := 200, stop := 300, get_base := fun _ => "G" }]).reads.length =
    (SNP.detect_mapped_reads
        { chrom := "chr1", id := ".", pos := 150, ref := "A", alt := "G",
          «mut» := "AG", gt := "1|0", type := "transition", reads := [],
          bases := [], model_llkh := [0, 0], model := none }
        [{ chr := "chr1", start := 100, stop := 200, get_base := fun _ => "A" },
         { chr := "chr2", start := 100, stop := 200, get_base := fun _ => "C" },
         { chr := "chr1", start := 200, stop := 300, get_base := fun _ => "G" }]).bases.length := by
  have h := C3_detect_mapped_reads_spec
    { chrom := "chr1", id := ".", pos := 150, ref := "A", alt := "G",
      «mut» := "AG", gt := "1|0", type := "transition", reads := [],
      bases := [], model_llkh := [0, 0], model := none }
    [{ chr := "chr1", start := 100, stop := 200, get_base := fun _ => "A" },
     { chr := "chr2", start := 100, stop := 200, get_base := fun _ => "C" },
     { chr := "chr1", start := 200, stop := 300, get_base := fun _ => "G" }]
  refine ⟨?_, ?_, h.2.2 rfl⟩
  · rw [h.1]; rfl
  · rw [h.2.1]; rfl

/-- C9: SNP equality holds exactly on matching chromosome, position and
`mut`; `__ne__` is the boolean complement of `__eq__` on every pair;
and the hash key `(chrom, pos)` agrees on any two equal entities. -/
theorem C9_eq_ne_hash (s t : SNP) :
    (SNP.eq s t = true ↔ s.chrom = t.chrom ∧ s.pos = t.pos ∧ s.«mut» = t.«mut») ∧
    SNP.ne s t = !SNP.eq s t ∧
    (SNP.eq s t = true → s.hashKey = t.hashKey) := by
  refine ⟨?_, ?_, ?_⟩
  · simp [SNP.eq, and_assoc]
  · simp only [SNP.eq, SNP.ne, Bool.not_and, bne]
  · intro h
    simp only [SNP.eq, Bool.and_eq_true, beq_iff_eq] at h
    simp [SNP.hashKey, h.1.1, h.1.2]

/-- Witness for C9: two independently built entities with the same
chromosome, position and `mut` (but different ref/alt splits) are
equal, hash alike, and are not `ne`. -/
theorem C9_eq_ne_hash_witness :
    SNP.eq
      { chrom := "chr1", id := ".", pos := 5, ref := "A", alt := "G",
        «mut» := "AG", gt := "1|0", type := "transition", reads := [],
        bases := [], model_llkh := [0, 0], model := none }
      { chrom := "chr1", id := "x", pos := 5, ref := "AG", alt := "",
        «mut» := "AG", gt := "0|1", type := "indel", reads := [],
        bases := [], model_llkh := [0, 0], model := none } = true ∧
    SNP.hashKey
      { chrom := "chr1", id := ".", pos := 5, ref := "A", alt := "G",
        «mut» := "AG", gt := "1|0", type := "transition", reads := [],
        bases := [], model_llkh := [0, 0], model := none } =
    SNP.hashKey
      { chrom := "chr1", id := "x", pos := 5, ref := "AG", alt := "",
        «mut» := "AG", gt := "0|1", type := "indel", reads := [],
        bases := [], model_llkh := [0, 0], model := none } ∧
    SNP.ne
      { chrom := "chr1", id := ".", pos := 5, ref := "A", alt := "G",
        «mut» := "AG", gt := "1|0", type := "transition", reads := [],
        bases := [], model_llkh := [0, 0], model := none }
      { chrom := "chr1", id := "x", pos := 5, ref := "AG", alt := "",
        «mut» := "AG", gt := "0|1", type := "indel", reads := [],
        bases := [], model_llkh := [0, 0], model := none } = false := by
  have h := C9_eq_ne_hash
    { chrom := "chr1", id := ".", pos := 5, ref := "A", alt := "G",
      «mut» := "AG", gt := "1|0", type := "transition", reads := [],
      bases := [], model_llkh := [0, 0], model := none }
    { chrom := "chr1", id := "x", pos := 5, ref := "AG", alt := "",
      «mut» := "AG", gt := "0|1", type := "indel", reads := [],
      bases := [], model_llkh := [0, 0], model := none }
  have heq := h.1.mpr ⟨rfl, rfl, rfl⟩
  exact ⟨heq, h.2.2 heq, by rw [h.2.1, heq]; rfl⟩

/-- `maxReads` distributes over cons. -/
theorem maxReads_cons (x : SNP) (l : List SNP) :
    maxReads (x :: l) = max x.reads.length (maxReads l) := rfl

/-- An all-zero list has `maxReads` zero. -/
theorem maxReads_eq_zero (l : List SNP) (h : ∀ s ∈ l, s.reads.length = 0) :
    maxReads l = 0 := by
  induction l with
  | nil => rfl
  | cons x r ih =>
    rw [List.forall_mem_cons] at h
    rw [maxReads_cons, h.1, ih h.2]
    exact Nat.max_self 0

/-- Every member's read count is bounded by `maxReads`. -/
theorem le_maxReads (t : SNP) (l : List SNP) (ht : t ∈ l) :
    t.reads.length ≤ maxReads l := by
  induction l with
  | nil => cases ht
  | cons x r ih =>
    rcases List.mem_cons.mp ht with rfl | h
    · rw [maxReads_cons]; exact Nat.le_max_left _ _
    · exact le_trans (ih h) (by rw [maxReads_cons]; exact Nat.le_max_right _ _)

/-- `maxReads` is below any common bound of the members. -/
theorem maxReads_le (l : List SNP) (n : Nat) (h : ∀ t ∈ l, t.reads.length ≤ n) :
    maxReads l ≤ n := by
  induction l with
  | nil => exact Nat.zero_le n
  | cons x r ih =>
    rw [List.forall_mem_cons] at h
    rw [maxReads_cons]
    exact Nat.max_le.mpr ⟨h.1, ih h.2⟩

/-- The running-maximum scan returns the first entity attaining the
list's maximal read count as soon as that maximum beats the initial
threshold, and the initial candidate otherwise. -/
theorem find_aux_eq (l : List SNP) : ∀ (m : Nat) (best : Option SNP),
    find_aux l m best =
      if m < maxReads l then
        l.find? (fun s => decide (maxReads l ≤ s.reads.length))
      else best := by
  induction l with
  | nil =>
    intro m best
    simp [find_aux, maxReads]
  | cons x rest ih =>
    intro m best
    have hM : maxReads (x :: rest) = max x.reads.length (maxReads rest) :=
      maxReads_cons x rest
    simp only [find_aux]
    by_cases h1 : m < x.reads.length
    · rw [if_pos h1, ih,
        if_pos (show m < maxReads (x :: rest) by
          rw [hM]; exact Nat.lt_of_lt_of_le h1 (Nat.le_max_left _ _))]
      by_cases h2 : x.reads.length < maxReads rest
      · rw [if_pos h2]
        have hmax : maxReads (x :: rest) = maxReads rest := by
          rw [hM, Nat.max_eq_right (le_of_lt h2)]
        rw [hmax, List.find?_cons_of_neg _
          (by simp only [decide_eq_true_eq]; omega)]
      · rw [if_neg h2]
        have hmax : maxReads (x :: rest) = x.reads.length := by
          rw [hM, Nat.max_eq_left (Nat.not_lt.mp h2)]
        rw [hmax, List.find?_cons_of_pos _ (by simp)]
    · rw [if_neg h1, ih]
      have hxm : x.reads.length ≤ m := Nat.not_lt.mp h1
      by_cases h2 : m < maxReads rest
      · rw [if_pos h2]
        have hmax : maxReads (x :: rest) = maxReads rest := by
          rw [hM, Nat.max_eq_right (le_trans hxm (le_of_lt h2))]
        rw [if_pos (by rw [hmax]; exact h2), hmax,
          List.find?_cons_of_neg _ (by simp only [decide_eq_true_eq]; omega)]
      · rw [if_neg h2, if_neg (by
          rw [hM]
          exact Nat.not_lt.mpr (Nat.max_le.mpr ⟨hxm, Nat.not_lt.mp h2⟩))]

/-- In `l1 ++ s :: l2`, if every element of `l1` has strictly fewer
reads than `s`, the first element whose count reaches `s`'s is `s`. -/
theorem find?_first_max (s : SNP) (l1 l2 : List SNP)
    (h1 : ∀ t ∈ l1, t.reads.length < s.reads.length) :
    (l1 ++ s :: l2).find?
      (fun u => decide (s.reads.length ≤ u.reads.length)) = some s := by
  induction l1 with
  | nil => exact List.find?_cons_of_pos _ (by simp)
  | cons x r ih =>
    rw [List.cons_append, List.find?_cons_of_neg _ (by
      simp only [decide_eq_true_eq]
      exact Nat.not_le.mpr (h1 x (List.mem_cons_self x r)))]
    exact ih fun t ht => h1 t (List.mem_cons_of_mem x ht)

/-- C4: `find_most_reads_snp` returns `none` on an empty collection or
when every entity has zero mapped reads; otherwise it returns the first
entity (in iteration order) whose mapped-read count strictly exceeds
that of every earlier entity and is not exceeded by any later one. -/
theorem C4_find_most_reads_snp_spec (l : List SNP) :
    ((∀ s ∈ l, s.reads.length = 0) → find_most_reads_snp l = none) ∧
    (∀ (l1 : List SNP) (s : SNP) (l2 : List SNP), l = l1 ++ s :: l2 →
      (∀ t ∈ l1, t.reads.length < s.reads.length) →
      (∀ t ∈ l2, t.reads.length ≤ s.reads.length) →
      (∃ t ∈ l, 0 < t.reads.length) →
      find_most_reads_snp l = some s) := by
  constructor
  · intro h
    rw [find_most_reads_snp, find_aux_eq, maxReads_eq_zero l h]
    rfl
  · intro l1 s l2 hl h1 h2 hnz
    have hMle : maxReads l ≤ s.reads.length := by
      apply maxReads_le
      intro t ht
      rw [hl] at ht
      rcases List.mem_append.mp ht with h | h
      · exact le_of_lt (h1 t h)
      · rcases List.mem_cons.mp h with rfl | h
        · exact le_refl _
        · exact h2 t h
    have hsl : s ∈ l := by
      rw [hl]; exact List.mem_append_right l1 (List.mem_cons_self s l2)
    have hM : maxReads l = s.reads.length :=
      le_antisymm hMle (le_maxReads s l hsl)
    have hpos : 0 < maxReads l := by
      obtain ⟨t, htl, htpos⟩ := hnz
      exact Nat.lt_of_lt_of_le htpos (le_maxReads t l htl)
    rw [find_most_reads_snp, find_aux_eq, if_pos hpos, hM, hl]
    exact find?_first_max s l1 l2 h1

/-- A sample read used by the selection-utility witness. -/
def readW : NanoporeRead :=
  { chr := "chr1", start := 100, stop := 200, get_base := fun _ => "A" }

/-- Witness SNP with one mapped read. -/
def snpW1 : SNP :=
  { chrom := "chr1", id := ".", pos := 5, ref := "A", alt := "G",
    «mut» := "AG", gt := "1|0", type := "transition", reads := [readW],
    bases := ["A"], model_llkh := [0, 0], model := none }

/-- Witness SNP with two mapped reads. -/
def snpW2 : SNP :=
  { chrom := "chr1", id := ".", pos := 7, ref := "C", alt := "T",
    «mut» := "CT", gt := "1|0", type := "transition",
    reads := [readW, readW], bases := ["A", "A"],
    model_llkh := [0, 0], model := none }

/-- Witness SNP with three mapped reads. -/
def snpW3 : SNP :=
  { chrom := "chr1", id := ".", pos := 9, ref := "A", alt := "C",
    «mut» := "AC", gt := "1|0", type := "transversion",
    reads := [readW, readW, readW], bases := ["A", "A", "A"],
    model_llkh := [0, 0], model := none }

/-- Witness for C4: the empty collection gives `none`, and in a
collection whose unique maximum (3 reads) sits in the middle, that
entity is returned. -/
theorem C4_find_most_reads_snp_spec_witness :
    find_most_reads_snp [] = none ∧
    find_most_reads_snp [snpW1, snpW3, snpW2] = some snpW3 := by
  constructor
  · exact (C4_find_most_reads_snp_spec []).1 (by intro s hs; cases hs)
  · refine (C4_find_most_reads_snp_spec [snpW1, snpW3, snpW2]).2
      [snpW1] snpW3 [snpW2] rfl ?_ ?_ ⟨snpW1, List.mem_cons_self _ _, by decide⟩
    · intro t ht
      rw [List.mem_singleton] at ht
      subst ht
      decide
    · intro t ht
      rw [List.mem_singleton] at ht
      subst ht
      decide

/-- Ten-way unpacking fails exactly on lists whose length is not 10. -/
theorem unpack10_none_iff (l : List String) :
    unpack10 l = none ↔ l.length ≠ 10 := by
  rcases l with _ | ⟨a, _ | ⟨b, _ | ⟨c, _ | ⟨d, _ | ⟨e, _ | ⟨f, _ | ⟨g, _ |
    ⟨h, _ | ⟨i, _ | ⟨j, _ | ⟨k, rest⟩⟩⟩⟩⟩⟩⟩⟩⟩⟩⟩ <;>
    simp [unpack10]

/-- One step of the loader's loop on a line that cannot raise: the line
either contributes its retained SNP at the front or is skipped, and any
error already produced by the remaining lines passes through. -/
theorem loadVCFAux_cons_of_wf (p : String) (L : List String)
    (hp : lineWF p = true) :
    loadVCFAux (p :: L) =
      (loadVCFAux L).map fun r => (retained p).elim r (fun snp => snp :: r) := by
  by_cases hc : pyStartswith p "chr" = true
  · cases h10 : unpack10 (pySplit (pyStrip p) '\t') with
    | none => exfalso; simp [lineWF, hc, h10] at hp
    | some t =>
      obtain ⟨chrom, pos, id, ref, alt, q, f, i, fmt, gt⟩ := t
      cases h2 : unpack2 (pySplit gt '|') with
      | none => exfalso; simp [lineWF, hc, h10, h2] at hp
      | some ab =>
        obtain ⟨a, b⟩ := ab
        by_cases hab : a = b
        · subst hab
          cases hL : loadVCFAux L <;>
            simp [loadVCFAux, retained, hc, h10, h2, hL, Except.map]
        · cases hm : SNP.make chrom id pos ref alt gt with
          | none => exfalso; simp [lineWF, hc, h10, h2, hab, hm] at hp
          | some snp =>
            by_cases hty : snp.type = "indel"
            · cases hL : loadVCFAux L <;>
                simp [loadVCFAux, retained, hc, h10, h2, hab, hm, hty, hL, Except.map]
            · cases hL : loadVCFAux L <;>
                simp [loadVCFAux, retained, hc, h10, h2, hab, hm, hty, hL, Except.map]
  · cases hL : loadVCFAux L <;>
      simp [loadVCFAux, retained, hc, hL, Except.map]

/-- C2: on a file whose lines are all well formed, `load_VCF` returns
exactly the `chr`-prefixed heterozygous non-indel lines as SNP
entities, in file order, with no deduplication; homozygous lines,
indel lines and non-`chr` lines contribute nothing. -/
theorem C2_load_VCF_wellformed (lines : List String)
    (h : ∀ l ∈ lines, lineWF l = true) :
    load_VCF lines = .ok (lines.filterMap retained) := by
  induction lines with
  | nil => rfl
  | cons p ps ih =>
    rw [List.forall_mem_cons] at h
    simp only [load_VCF] at ih ⊢
    rw [loadVCFAux_cons_of_wf p ps h.1, ih h.2, List.filterMap_cons]
    cases hr : retained p <;> simp [hr, Except.map]

/-- Witness for C2 on a four-line file: the heterozygous non-indel
line is kept, the homozygous and indel lines and the header are not. -/
theorem C2_load_VCF_wellformed_witness :
    load_VCF ["##header",
              "chr1\t10\t.\tA\tG\t0\tPASS\ti\tGT\t1|0",
              "chr1\t20\t.\tC\tT\t0\tPASS\ti\tGT\t1|1",
              "chr1\t30\t.\tAT\tG\t0\tPASS\ti\tGT\t1|0"] =
      .ok (["##header",
            "chr1\t10\t.\tA\tG\t0\tPASS\ti\tGT\t1|0",
            "chr1\t20\t.\tC\tT\t0\tPASS\ti\tGT\t1|1",
            "chr1\t30\t.\tAT\tG\t0\tPASS\ti\tGT\t1|0"].filterMap retained) ∧
    (["##header",
      "chr1\t10\t.\tA\tG\t0\tPASS\ti\tGT\t1|0",
      "chr1\t20\t.\tC\tT\t0\tPASS\ti\tGT\t1|1",
      "chr1\t30\t.\tAT\tG\t0\tPASS\ti\tGT\t1|0"].filterMap retained).map
        (fun s => (s.pos, s.type)) = [(10, "transition")] := by
  constructor
  · exact C2_load_VCF_wellformed _ (by decide)
  · rfl

/-- C5: a `chr`-prefixed line that does not split on tabs into exactly
ten fields makes the whole load fail with the "unpacking" error, even
when preceded by well-formed lines; no partial result is returned. -/
theorem C5_load_VCF_malformed (pre : List String) (bad : String)
    (rest : List String)
    (hpre : ∀ l ∈ pre, lineWF l = true)
    (hchr : pyStartswith bad "chr" = true)
    (hlen : (pySplit (pyStrip bad) '\t').length ≠ 10) :
    load_VCF (pre ++ bad :: rest) = .error .unpacking := by
  induction pre with
  | nil =>
    have h10 : unpack10 (pySplit (pyStrip bad) '\t') = none :=
      (unpack10_none_iff _).mpr hlen
    simp [load_VCF, loadVCFAux, hchr, h10]
  | cons p ps ih =>
    rw [List.forall_mem_cons] at hpre
    have hrec := ih hpre.2
    rw [List.cons_append, load_VCF, loadVCFAux_cons_of_wf p _ hpre.1]
    rw [load_VCF] at hrec
    rw [hrec]
    rfl

/-- Witness for C5: a 9-field data line after a valid heterozygous
line aborts the whole load. -/
theorem C5_load_VCF_malformed_witness :
    load_VCF ["chr1\t10\t.\tA\tG\t0\tPASS\ti\tGT\t1|0",
              "chr1\t20\t.\tC\tT\t0\tPASS\tGT\t1|0"] =
      .error .unpacking :=
  C5_load_VCF_malformed ["chr1\t10\t.\tA\tG\t0\tPASS\ti\tGT\t1|0"]
    "chr1\t20\t.\tC\tT\t0\tPASS\tGT\t1|0" [] (by decide) (by decide) (by decide)

/-- C7 counterexample: a heterozygous ten-field data line whose
position is not integer-coercible makes `load_VCF` fail with the very
same "unpacking" error as a malformed nine-field line — the
`except ValueError` clause catches the construction failure instead of
letting it propagate as a distinct error. -/
theorem C7_counterexample :
    load_VCF ["chr1\tnotanint\t.\tA\tG\t0\tPASS\tinfo\tGT\t1|0"] =
      .error .unpacking ∧
    load_VCF ["chr1\t10\t.\tA\tG\t0\tPASS\tGT\t1|0"] = .error .unpacking :=
  ⟨rfl, rfl⟩

/-- C7 (amended): on a heterozygous `chr`-prefixed ten-field line with
a non-integer-coercible position, the `ValueError` from `int(pos)`
inside SNP construction is caught by `load_VCF`'s `except ValueError`
handler and surfaced as the same "unpacking" `RuntimeError` used for
malformed lines, aborting the load. -/
theorem C7_load_VCF_invalid_position (line : String) (rest : List String)
    (chrom pos id ref alt q f i fmt gt a b : String)
    (hchr : pyStartswith line "chr" = true)
    (h10 : unpack10 (pySplit (pyStrip line) '\t') =
      some (chrom, pos, id, ref, alt, q, f, i, fmt, gt))
    (h2 : unpack2 (pySplit gt '|') = some (a, b))
    (hab : a ≠ b)
    (hpos : pyInt pos = none) :
    load_VCF (line :: rest) = .error .unpacking := by
  have hm : SNP.make chrom id pos ref alt gt = none := by
    simp [SNP.make, hpos]
  simp [load_VCF, loadVCFAux, hchr, h10, h2, hab, hm]

/-- Witness for the amended C7 at a concrete file. -/
theorem C7_load_VCF_invalid_position_witness :
    load_VCF ["chr2\tnotanint\trs1\tC\tT\t0\tPASS\tinfo\tGT\t0|1"] =
      .error .unpacking :=
  C7_load_VCF_invalid_position "chr2\tnotanint\trs1\tC\tT\t0\tPASS\tinfo\tGT\t0|1"
    [] "chr2" "notanint" "rs1" "C" "T" "0" "PASS" "info" "GT" "0|1" "0" "1"
    (by decide) rfl rfl (by decide) (by decide)

/-- C8 counterexample: `SNP` construction accepts the position string
`"-1"` and stores the negative integer `-1`, so `pos` is not always
non-negative. -/
theorem C8_counterexample :
    (SNP.make "chr1" "." "-1" "A" "G" "1|0").map SNP.pos = some (-1) ∧
    ¬(0 : Int) ≤ -1 := by
  decide

/-- C8 (amended): for every successfully constructed SNP, `pos` is the
integer that Python's `int` parses from the source position string —
with its sign, so non-negativity is not guaranteed. -/
theorem C8_pos_parsed (chr id pos ref alt gt : String) (snp : SNP)
    (h : SNP.make chr id pos ref alt gt = some snp) :
    pyInt pos = some snp.pos := by
  rw [SNP.make] at h
  cases hp : pyInt pos with
  | none => rw [hp] at h; exact absurd h (by simp)
  | some p =>
    rw [hp] at h
    rw [Option.map_some'] at h
    obtain rfl := Option.some.inj h
    rfl

/-- Witness for the amended C8: the stored position of the SNP built
from `"-1"` is exactly the parsed integer `-1`. -/
theorem C8_pos_parsed_witness :
    pyInt "-1" = some
      (SNP.pos { chrom := "chr1", id := ".", pos := -1, ref := "A", alt := "G",
                 «mut» := "AG", gt := "1|0", type := "transition", reads := [],
                 bases := [], model_llkh := [0, 0], model := none }) :=
  C8_pos_parsed "chr1" "." "-1" "A" "G" "1|0"
    { chrom := "chr1", id := ".", pos := -1, ref := "A", alt := "G",
      «mut» := "AG", gt := "1|0", type := "transition", reads := [],
      bases := [], model_llkh := [0, 0], model := none } rfl

/-- C10: a ten-field `chr`-prefixed line whose two genotype alleles are
equal is skipped before `SNP` construction runs, so even a
non-integer-coercible position field on such a line cannot make
`load_VCF` fail: the load continues exactly as if the line were
absent. -/
theorem C10_homozygous_shadows_invalid_position (line : String)
    (rest : List String)
    (chrom pos id ref alt q f i fmt gt a b : String)
    (hchr : pyStartswith line "chr" = true)
    (h10 : unpack10 (pySplit (pyStrip line) '\t') =
      some (chrom, pos, id, ref, alt, q, f, i, fmt, gt))
    (h2 : unpack2 (pySplit gt '|') = some (a, b))
    (hab : a = b)
    (_hpos : pyInt pos = none) :
    load_VCF (line :: rest) = load_VCF rest := by
  subst hab
  simp [load_VCF, loadVCFAux, hchr, h10, h2]

/-- Witness for C10: a homozygous line with position `"XYZ"` is
silently skipped and the load of the remaining (empty) file
succeeds. -/
theorem C10_homozygous_shadows_invalid_position_witness :
    load_VCF ["chr1\tXYZ\t.\tA\tG\t0\tPASS\ti\tGT\t1|1"] = Except.ok [] ∧
    pyInt "XYZ" = none := by
  constructor
  · exact (C10_homozygous_shadows_invalid_position
      "chr1\tXYZ\t.\tA\tG\t0\tPASS\ti\tGT\t1|1" [] "chr1" "XYZ" "." "A" "G"
      "0" "PASS" "i" "GT" "1|1" "1" "1" (by decide) rfl rfl
      rfl (by decide)).trans rfl
  · decide

end Snps
